import Mathlib

/-!
Verification of the password value object of the `auth` package
(golibry/go-common-domain).  Go strings are modelled as lists of Unicode
code points (`Char`); the byte-indexed pattern detectors receive the UTF-8
encoding of the string, exactly as Go's `password[i]` indexes bytes.
The Unicode classifier tables are embedded on their ASCII fragment, where
they agree with Go's `unicode` package, and `unicode.ToLower` additionally
carries the two non-ASCII code points whose lowercase is ASCII; every
concrete input used below stays inside these fragments.
-/

/-- A Go string viewed as its sequence of Unicode code points. -/
abbrev GoStr := List Char

/-- A Go string viewed as its raw UTF-8 bytes (Go `password[i]` indexing). -/
abbrev Bytes := List Nat

/-- Standard UTF-8 encoding of one code point. -/
def utf8EncodeChar (c : Char) : Bytes :=
  let n := c.toNat
  if n < 128 then [n]
  else if n < 2048 then [192 + n / 64, 128 + n % 64]
  else if n < 65536 then [224 + n / 4096, 128 + (n / 64) % 64, 128 + n % 64]
  else [240 + n / 262144, 128 + (n / 4096) % 64, 128 + (n / 64) % 64, 128 + n % 64]

/-- UTF-8 encoding of a Go string: the byte sequence Go indexes into. -/
def utf8Encode (s : GoStr) : Bytes :=
  s.foldr (fun c acc => utf8EncodeChar c ++ acc) []

/-- `occursIn w s`: the list `w` occurs as a contiguous segment of `s`
(the "substring" relation used by the spec's run/window language). -/
def occursIn {α : Type} (w s : List α) : Prop :=
  ∃ t u, s = t ++ w ++ u

/-- Generic length-4 sliding-window scan: Go's
`for i := 0; i < len(s)-3; i++` loops over `s[i] .. s[i+3]`. -/
def hasWindow4 {α : Type} (P : α → α → α → α → Bool) : List α → Bool
  | a :: b :: c :: d :: rest => P a b c d || hasWindow4 P (b :: c :: d :: rest)
  | _ => false

/-- MinPasswordLength from the source (8). -/
def MinPasswordLength : Nat := 8

/-- MaxPasswordLength from the source (128). -/
def MaxPasswordLength : Nat := 128

/-- BcryptCost from the source (12). -/
def BcryptCost : Nat := 12

/-- The error kinds of the password component (spec section 7 taxonomy;
the source realises them as distinguished `domain.Error` values). -/
inductive BcryptError where
  | mismatchedHashAndPassword
  | invalidHash
  | passwordTooLong
deriving DecidableEq

/-- Error kinds surfaced by the password component. -/
inductive PasswordError where
  | tooShort
  | tooLong
  | tooWeak
  | common
  | invalidChars
  | verifyFailed
  | hashingFailure (cause : BcryptError)
  | malformedPersistedForm
deriving DecidableEq

/-- Password value object: the single stored field `hashedValue`. -/
structure Password where
  hashedValue : GoStr
deriving DecidableEq

/-- Modelled from the spec: the external bcrypt primitive's
`GenerateFromPassword` (the primitive itself is a third-party collaborator,
not part of this repository's sources).  The spec requires a self-describing
hash from which `compare` succeeds exactly for the original plaintext, and a
wrapped failure when the password exceeds the primitive's internal byte
limit.  The model marks well-formed hashes with a leading `'$'` and embeds
the plaintext; salt and one-wayness are abstracted away, which no claim
below depends on. -/
def bcryptGenerateFromPassword (password : GoStr) (cost : Nat) : GoStr × Option BcryptError :=
  if 72 < (utf8Encode password).length then ([], some BcryptError.passwordTooLong)
  else ('$' :: password, none)

/-- Modelled from the spec: the primitive's `CompareHashAndPassword`,
returning distinguishable outcomes match / mismatch / malformed-hash
(spec section 6, collaborator contract (b)). -/
def bcryptCompareHashAndPassword (hashedValue attempt : GoStr) : Option BcryptError :=
  match hashedValue with
  | [] => some BcryptError.invalidHash
  | h :: pw =>
    if h = '$' then
      if pw = attempt then none else some BcryptError.mismatchedHashAndPassword
    else some BcryptError.invalidHash

/-- ASCII fragment of Go `unicode.IsUpper` (agrees with Go on ASCII). -/
def unicode.IsUpper (c : Char) : Bool := decide (65 ≤ c.toNat ∧ c.toNat ≤ 90)

/-- ASCII fragment of Go `unicode.IsLower`. -/
def unicode.IsLower (c : Char) : Bool := decide (97 ≤ c.toNat ∧ c.toNat ≤ 122)

/-- ASCII fragment of Go `unicode.IsNumber`. -/
def unicode.IsNumber (c : Char) : Bool := decide (48 ≤ c.toNat ∧ c.toNat ≤ 57)

/-- ASCII fragment of Go `unicode.IsPrint` (space through tilde). -/
def unicode.IsPrint (c : Char) : Bool := decide (32 ≤ c.toNat ∧ c.toNat ≤ 126)

/-- ASCII fragment of Go `unicode.IsPunct` (Unicode category P on ASCII). -/
def unicode.IsPunct (c : Char) : Bool :=
  decide (c.toNat ∈ ([33, 34, 35, 37, 38, 39, 40, 41, 42, 44, 45, 46, 47,
    58, 59, 63, 64, 91, 92, 93, 95, 123, 125] : List Nat))

/-- ASCII fragment of Go `unicode.IsSymbol` (Unicode category S on ASCII). -/
def unicode.IsSymbol (c : Char) : Bool :=
  decide (c.toNat ∈ ([36, 43, 60, 61, 62, 94, 96, 124, 126] : List Nat))

/-- Go `unicode.ToLower` on the fragment relevant to this component:
ASCII uppercase gains 32, and the two non-ASCII code points whose simple
lowercase mapping is ASCII are mapped — U+0130 (304) to i (105) and
U+212A (8490) to k (107).  Go lowers further non-ASCII letters to other
non-ASCII letters; on both sides those encode only to bytes above 127,
which the byte scans below treat identically (never inside a matching
window, always breaking one), so leaving them unchanged is extensionally
faithful for every function modelled here. -/
def unicode.ToLower (c : Char) : Char :=
  if 65 ≤ c.toNat ∧ c.toNat ≤ 90 then Char.ofNat (c.toNat + 32)
  else if c.toNat = 304 then Char.ofNat 105
  else if c.toNat = 8490 then Char.ofNat 107
  else c

/-- Go `strings.ToLower`: each rune is lowered with `unicode.ToLower` and
the result is re-encoded (the byte layout may change, e.g. the three-byte
U+212A becomes the single byte of k). -/
def strings.ToLower (s : GoStr) : GoStr := s.map unicode.ToLower

/-- Case fold of a single ASCII byte (uppercase gains 32, others fixed).
Used only by the claim-side window predicate `specSequentialWindow`, whose
letter windows are required to be ASCII letters, where this per-byte fold
is exactly the case fold; it is not a model of `strings.ToLower`. -/
def toLowerByte (b : Nat) : Nat :=
  if 65 ≤ b ∧ b ≤ 90 then b + 32 else b

/-- Byte is an ASCII digit (Go regexp `\d` matches exactly these bytes). -/
def isDigitB (b : Nat) : Bool := decide (48 ≤ b ∧ b ≤ 57)

/-- Byte is an ASCII letter (Go regexp class of lower and upper letters). -/
def isAlphaB (b : Nat) : Bool :=
  decide ((65 ≤ b ∧ b ≤ 90) ∨ (97 ≤ b ∧ b ≤ 122))

/-- Go regexp `numericSeq` (four-or-more consecutive digits) matches the
string: equivalently some window of 4 consecutive digit bytes exists. -/
def numericSeqMatch (s : Bytes) : Bool :=
  hasWindow4 (fun a b c d => isDigitB a && isDigitB b && isDigitB c && isDigitB d) s

/-- Go regexp `alphaSeq` (four-or-more consecutive ASCII letters). -/
def alphaSeqMatch (s : Bytes) : Bool :=
  hasWindow4 (fun a b c d => isAlphaB a && isAlphaB b && isAlphaB c && isAlphaB d) s

/-- The source's ascending scan: start byte bounded by `lo`/`hi`, next
three bytes each one larger (`password[i+j] == password[i]+byte(j)`). -/
def ascScan (lo hi : Nat) (s : Bytes) : Bool :=
  hasWindow4 (fun a b c d =>
    decide (lo ≤ a ∧ a ≤ hi ∧ b = a + 1 ∧ c = a + 2 ∧ d = a + 3)) s

/-- The source's descending scan (`password[i+j] == password[i]-byte(j)`;
the lower bound on the start byte keeps the subtraction from wrapping). -/
def descScan (lo hi : Nat) (s : Bytes) : Bool :=
  hasWindow4 (fun a b c d =>
    decide (lo ≤ a ∧ a ≤ hi ∧ b = a - 1 ∧ c = a - 2 ∧ d = a - 3)) s

/-- isSequentialPattern from the source.  The Go function receives the
string; `len`, the regex gates and the digit scans work on its raw bytes,
while the letter scans work on the bytes of `strings.ToLower(password)` —
a rune-level lowering, so the lowered byte string may contain ASCII
letters the original bytes do not (e.g. U+212A lowers to k).  Structure:
length guard, digit block (regex gate, ascending scan with start byte in
48..54, descending scan with start in 51..57), letter block (regex gate on
the original bytes, ascending scan with start 97..119 and descending scan
with start 100..122 on the lowered bytes). -/
def isSequentialPattern (password : GoStr) : Bool :=
  if (utf8Encode password).length < 4 then false
  else
    (numericSeqMatch (utf8Encode password) &&
      (ascScan 48 54 (utf8Encode password) || descScan 51 57 (utf8Encode password))) ||
    (alphaSeqMatch (utf8Encode password) &&
      (ascScan 97 119 (utf8Encode (strings.ToLower password)) ||
       descScan 100 122 (utf8Encode (strings.ToLower password))))

/-- isRepeatingPattern from the source: four equal consecutive bytes. -/
def isRepeatingPattern (password : Bytes) : Bool :=
  if password.length < 4 then false
  else hasWindow4 (fun a b c d => decide (a = b) && decide (b = c) && decide (c = d)) password

/-- One step of the complexity switch in the source: the first matching
class of the rune sets the corresponding flag. -/
def complexityStep (flags : Bool × Bool × Bool × Bool) (r : Char) : Bool × Bool × Bool × Bool :=
  if unicode.IsUpper r then (true, flags.2.1, flags.2.2.1, flags.2.2.2)
  else if unicode.IsLower r then (flags.1, true, flags.2.2.1, flags.2.2.2)
  else if unicode.IsNumber r then (flags.1, flags.2.1, true, flags.2.2.2)
  else if unicode.IsPunct r || unicode.IsSymbol r then (flags.1, flags.2.1, flags.2.2.1, true)
  else flags

/-- validatePasswordComplexity from the source. -/
def validatePasswordComplexity (password : GoStr) : Option PasswordError :=
  let flags := password.foldl complexityStep (false, false, false, false)
  if !flags.1 || !flags.2.1 || !flags.2.2.1 || !flags.2.2.2 then
    some PasswordError.tooWeak
  else none

/-- The fixed deny-list of common passwords from the source. -/
def commonPasswords : List GoStr :=
  (["password", "123456", "123456789", "12345678", "12345",
    "1234567", "password123", "admin", "qwerty", "abc123",
    "letmein", "monkey", "1234567890", "dragon", "111111",
    "baseball", "iloveyou", "trustno1", "sunshine", "master",
    "welcome", "shadow", "ashley", "football", "jesus",
    "michael", "ninja", "mustang", "password1"] : List String).map String.data

/-- validatePasswordStrength from the source: case-insensitive deny-list
match, then the two pattern detectors over the string's bytes. -/
def validatePasswordStrength (password : GoStr) : Option PasswordError :=
  let lowerPassword := strings.ToLower password
  if commonPasswords.contains lowerPassword then some PasswordError.common
  else if isSequentialPattern password || isRepeatingPattern (utf8Encode password) then
    some PasswordError.common
  else none

/-- ValidatePassword from the source: length floor, length ceiling,
printable-character check, complexity, then strength. -/
def ValidatePassword (password : GoStr) : Option PasswordError :=
  if password.length < MinPasswordLength then some PasswordError.tooShort
  else if MaxPasswordLength < password.length then some PasswordError.tooLong
  else if password.any (fun r => ! unicode.IsPrint r) then some PasswordError.invalidChars
  else
    match validatePasswordComplexity password with
    | some e => some e
    | none => validatePasswordStrength password

/-- NewPassword from the source: validation, then hashing; both error
paths return the zero-value `Password` together with the error. -/
def NewPassword (plaintext : GoStr) : Password × Option PasswordError :=
  match ValidatePassword plaintext with
  | some e => (Password.mk [], some e)
  | none =>
    match bcryptGenerateFromPassword plaintext BcryptCost with
    | (_, some e) => (Password.mk [], some (PasswordError.hashingFailure e))
    | (hashedBytes, none) => (Password.mk hashedBytes, none)

/-- ReconstitutePassword from the source: no validation, no hashing. -/
def ReconstitutePassword (hashedValue : GoStr) : Password :=
  Password.mk hashedValue

/-- Password.Verify from the source: any error from the primitive —
mismatch or otherwise — is replaced by `ErrPasswordVerifyFailed`. -/
def Password.Verify (p : Password) (plaintext : GoStr) : Option PasswordError :=
  match bcryptCompareHashAndPassword p.hashedValue plaintext with
  | some _ => some PasswordError.verifyFailed
  | none => none

/-- Password.HashedValue from the source. -/
def Password.HashedValue (p : Password) : GoStr := p.hashedValue

/-- Password.Equals from the source. -/
def Password.Equals (p other : Password) : Bool :=
  decide (p.hashedValue = other.hashedValue)

/-- Password.String from the source: the fixed sentinel. -/
def Password.String (p : Password) : GoStr := "[PROTECTED]".data

/-- The Go struct `passwordJSON` after unmarshalling (its single field). -/
structure passwordJSON where
  HashedValue : GoStr
deriving DecidableEq

/-- The structured persistence form (spec section 6): a single-field
record whose field may be absent on the wire; `Option` models absence. -/
structure PersistedForm where
  hashedValue : Option GoStr
deriving DecidableEq

/-- `encoding/json` unmarshalling of the record into `passwordJSON`: an
absent field leaves the Go zero value (the empty string). -/
def jsonUnmarshal (doc : PersistedForm) : passwordJSON :=
  passwordJSON.mk (doc.hashedValue.getD [])

/-- Password.MarshalJSON from the source: emits the single-field record. -/
def Password.MarshalJSON (p : Password) : PersistedForm :=
  PersistedForm.mk (some p.hashedValue)

/-- NewPasswordFromJSON from the source: unmarshal, reject a missing or
empty `hashedValue`, otherwise reconstitute without re-validation. -/
def NewPasswordFromJSON (doc : PersistedForm) : Password × Option PasswordError :=
  let temp := jsonUnmarshal doc
  if temp.HashedValue = [] then
    (Password.mk [], some PasswordError.malformedPersistedForm)
  else (ReconstitutePassword temp.HashedValue, none)

/-- Follows the spec's words (section 4.1, `hasRepeatingRun`): some code
point repeats four or more times consecutively; inputs shorter than 4
code points are false.  Used only to compare the spec's code-point reading
against the byte-level source function. -/
def specHasRepeatingRun (s : GoStr) : Bool :=
  if s.length < 4 then false
  else hasWindow4 (fun a b c d => decide (a = b) && decide (b = c) && decide (c = d)) s

/-- Follows the spec's words (section 4.1, `hasSequentialRun`): a window of
4 consecutive characters, all of one class (digits, or letters under case
folding), forming a strictly ascending or strictly descending unit-step
run of the digit alphabet or of the case-folded letter alphabet. -/
def specSequentialWindow (w : Bytes) : Bool :=
  match w with
  | [a, b, c, d] =>
    (isDigitB a && isDigitB b && isDigitB c && isDigitB d &&
      (decide (b = a + 1 ∧ c = a + 2 ∧ d = a + 3) ||
       decide (a = b + 1 ∧ b = c + 1 ∧ c = d + 1)))
    ||
    (isAlphaB a && isAlphaB b && isAlphaB c && isAlphaB d &&
      (decide (toLowerByte b = toLowerByte a + 1 ∧ toLowerByte c = toLowerByte a + 2 ∧
               toLowerByte d = toLowerByte a + 3) ||
       decide (toLowerByte a = toLowerByte b + 1 ∧ toLowerByte b = toLowerByte c + 1 ∧
               toLowerByte c = toLowerByte d + 1)))
  | _ => false

/-- Byte is an ASCII lowercase letter. -/
def isLowerB (b : Nat) : Bool := decide (97 ≤ b ∧ b ≤ 122)

/-- A strictly ascending or descending unit-step window of 4 digits. -/
def specDigitWindow (w : Bytes) : Bool :=
  match w with
  | [a, b, c, d] =>
    isDigitB a && isDigitB b && isDigitB c && isDigitB d &&
      (decide (b = a + 1 ∧ c = a + 2 ∧ d = a + 3) ||
       decide (a = b + 1 ∧ b = c + 1 ∧ c = d + 1))
  | _ => false

/-- A strictly ascending or descending unit-step window of 4 lowercase
letters (the shape the letter scans detect in the lowered byte string). -/
def specLowerLetterWindow (w : Bytes) : Bool :=
  match w with
  | [a, b, c, d] =>
    isLowerB a && isLowerB b && isLowerB c && isLowerB d &&
      (decide (b = a + 1 ∧ c = a + 2 ∧ d = a + 3) ||
       decide (a = b + 1 ∧ b = c + 1 ∧ c = d + 1))
  | _ => false

/-- A segment is never longer than the list it occurs in. -/
theorem occursIn_length {α : Type} {w s : List α} (h : occursIn w s) :
    w.length ≤ s.length := by
  obtain ⟨t, u, rfl⟩ := h
  simp [List.length_append]
  omega

/-- Segments are preserved by consing an element in front. -/
theorem occursIn_cons {α : Type} (x : α) {w s : List α} (h : occursIn w s) :
    occursIn w (x :: s) := by
  obtain ⟨t, u, rfl⟩ := h
  exact ⟨x :: t, u, rfl⟩

/-- The sliding-window scan fires exactly when a window satisfying the
predicate occurs as a segment of the list. -/
theorem hasWindow4_iff {α : Type} (P : α → α → α → α → Bool) :
    ∀ s : List α,
      hasWindow4 P s = true ↔ ∃ a b c d, occursIn [a, b, c, d] s ∧ P a b c d = true
  | [] => by
    constructor
    · intro h; simp [hasWindow4] at h
    · rintro ⟨a, b, c, d, hseg, -⟩
      have h4 := occursIn_length hseg
      simp at h4
  | [x] => by
    constructor
    · intro h; simp [hasWindow4] at h
    · rintro ⟨a, b, c, d, hseg, -⟩
      have h4 := occursIn_length hseg
      simp at h4
  | [x, y] => by
    constructor
    · intro h; simp [hasWindow4] at h
    · rintro ⟨a, b, c, d, hseg, -⟩
      have h4 := occursIn_length hseg
      simp at h4
  | [x, y, z] => by
    constructor
    · intro h; simp [hasWindow4] at h
    · rintro ⟨a, b, c, d, hseg, -⟩
      have h4 := occursIn_length hseg
      simp at h4
  | a :: b :: c :: d :: rest => by
    constructor
    · intro h
      simp only [hasWindow4, Bool.or_eq_true] at h
      rcases h with h | h
      · exact ⟨a, b, c, d, ⟨[], rest, rfl⟩, h⟩
      · obtain ⟨a', b', c', d', hseg, hp⟩ := (hasWindow4_iff P (b :: c :: d :: rest)).mp h
        exact ⟨a', b', c', d', occursIn_cons a hseg, hp⟩
    · rintro ⟨a', b', c', d', ⟨t, u, heq⟩, hp⟩
      simp only [hasWindow4, Bool.or_eq_true]
      cases t with
      | nil =>
        simp only [List.nil_append, List.cons_append, List.cons.injEq] at heq
        obtain ⟨h1, h2, h3, h4, -⟩ := heq
        subst h1; subst h2; subst h3; subst h4
        exact Or.inl hp
      | cons x t' =>
        simp only [List.cons_append, List.cons.injEq] at heq
        obtain ⟨-, htail⟩ := heq
        exact Or.inr ((hasWindow4_iff P (b :: c :: d :: rest)).mpr
          ⟨a', b', c', d', ⟨t', u, htail⟩, hp⟩)


/-- C5 counterexample: the detector lowercases at the rune level before
the letter scans, so it fires on "aaccKlmn" (U+212A lowers to k,
giving the run k l m n in the lowered bytes) even though no window of 4
consecutive same-class characters forming a unit-step run occurs among
the input's own bytes; conversely it stays false on "zzKlmn",
although that input does contain 4 consecutive characters whose case
folds form the unit-step run k l m n, because the regex gate sees no 4
consecutive ASCII letters in the original bytes.  Either way the claimed
exact window characterization fails on the code. -/
theorem sequential_pattern_lowering_cex :
    isSequentialPattern ['a', 'a', 'c', 'c', Char.ofNat 8490, 'l', 'm', 'n'] = true ∧
    hasWindow4 (fun a b c d => specSequentialWindow [a, b, c, d])
      (utf8Encode ['a', 'a', 'c', 'c', Char.ofNat 8490, 'l', 'm', 'n']) = false ∧
    isSequentialPattern ['z', 'z', Char.ofNat 8490, 'l', 'm', 'n'] = false ∧
    occursIn [Char.ofNat 8490, 'l', 'm', 'n'] ['z', 'z', Char.ofNat 8490, 'l', 'm', 'n'] ∧
    strings.ToLower [Char.ofNat 8490, 'l', 'm', 'n'] = ['k', 'l', 'm', 'n'] :=
  ⟨by decide, by decide, by decide, ⟨['z', 'z'], [], by decide⟩, by decide⟩

/-- C5 amended: the sequential-pattern detector fires exactly when the
input's bytes contain a strictly ascending or descending unit-step window
of 4 digits, or when the input's bytes contain 4 consecutive ASCII letter
bytes (the regex gate) and the bytes of the Unicode-lowercased input
contain a strictly ascending or descending unit-step window of 4
lowercase letters.  Non-unit-step runs such as "2468" and windows mixing
digits with letters therefore never fire it, but the letter windows live
in the lowered byte string, which rune-level lowering can populate with
letters the input's own bytes lack. -/
theorem isSequentialPattern_gated_characterization (s : GoStr) :
    isSequentialPattern s = true ↔
      ((∃ w, occursIn w (utf8Encode s) ∧ specDigitWindow w = true) ∨
       (alphaSeqMatch (utf8Encode s) = true ∧
        ∃ w, occursIn w (utf8Encode (strings.ToLower s)) ∧ specLowerLetterWindow w = true)) := by
  constructor
  · intro h
    unfold isSequentialPattern at h
    by_cases hl : (utf8Encode s).length < 4
    · rw [if_pos hl] at h
      exact absurd h (by simp)
    · rw [if_neg hl] at h
      simp only [Bool.or_eq_true, Bool.and_eq_true] at h
      rcases h with ⟨-, h | h⟩ | ⟨hg, h | h⟩
      · unfold ascScan at h
        obtain ⟨a, b, c, d, hseg, hp⟩ := (hasWindow4_iff _ _).mp h
        rw [decide_eq_true_eq] at hp
        refine Or.inl ⟨[a, b, c, d], hseg, ?_⟩
        simp only [specDigitWindow, Bool.or_eq_true, Bool.and_eq_true, and_assoc,
          decide_eq_true_eq, isDigitB]
        omega
      · unfold descScan at h
        obtain ⟨a, b, c, d, hseg, hp⟩ := (hasWindow4_iff _ _).mp h
        rw [decide_eq_true_eq] at hp
        refine Or.inl ⟨[a, b, c, d], hseg, ?_⟩
        simp only [specDigitWindow, Bool.or_eq_true, Bool.and_eq_true, and_assoc,
          decide_eq_true_eq, isDigitB]
        omega
      · unfold ascScan at h
        obtain ⟨a, b, c, d, hseg, hp⟩ := (hasWindow4_iff _ _).mp h
        rw [decide_eq_true_eq] at hp
        refine Or.inr ⟨hg, [a, b, c, d], hseg, ?_⟩
        simp only [specLowerLetterWindow, Bool.or_eq_true, Bool.and_eq_true, and_assoc,
          decide_eq_true_eq, isLowerB]
        omega
      · unfold descScan at h
        obtain ⟨a, b, c, d, hseg, hp⟩ := (hasWindow4_iff _ _).mp h
        rw [decide_eq_true_eq] at hp
        refine Or.inr ⟨hg, [a, b, c, d], hseg, ?_⟩
        simp only [specLowerLetterWindow, Bool.or_eq_true, Bool.and_eq_true, and_assoc,
          decide_eq_true_eq, isLowerB]
        omega
  · rintro (⟨w, hseg, hw⟩ | ⟨hg, w, hseg, hw⟩)
    · rcases w with _ | ⟨a, _ | ⟨b, _ | ⟨c, _ | ⟨d, _ | ⟨e, tail⟩⟩⟩⟩⟩
      · simp [specDigitWindow] at hw
      · simp [specDigitWindow] at hw
      · simp [specDigitWindow] at hw
      · simp [specDigitWindow] at hw
      · have hlen : ¬ (utf8Encode s).length < 4 := by
          have h4 := occursIn_length hseg
          simp at h4
          omega
        unfold isSequentialPattern
        rw [if_neg hlen]
        simp only [specDigitWindow, Bool.or_eq_true, Bool.and_eq_true, and_assoc,
          decide_eq_true_eq, isDigitB] at hw
        simp only [Bool.or_eq_true, Bool.and_eq_true]
        obtain ⟨ha1, ha2, hb1, hb2, hc1, hc2, hd1, hd2, hrun⟩ := hw
        left
        constructor
        · unfold numericSeqMatch
          refine (hasWindow4_iff _ _).mpr ⟨a, b, c, d, hseg, ?_⟩
          simp only [Bool.and_eq_true, isDigitB, decide_eq_true_eq]
          omega
        · rcases hrun with hasc | hdesc
          · left
            unfold ascScan
            refine (hasWindow4_iff _ _).mpr ⟨a, b, c, d, hseg, ?_⟩
            rw [decide_eq_true_eq]
            omega
          · right
            unfold descScan
            refine (hasWindow4_iff _ _).mpr ⟨a, b, c, d, hseg, ?_⟩
            rw [decide_eq_true_eq]
            omega
      · simp [specDigitWindow] at hw
    · rcases w with _ | ⟨a, _ | ⟨b, _ | ⟨c, _ | ⟨d, _ | ⟨e, tail⟩⟩⟩⟩⟩
      · simp [specLowerLetterWindow] at hw
      · simp [specLowerLetterWindow] at hw
      · simp [specLowerLetterWindow] at hw
      · simp [specLowerLetterWindow] at hw
      · have hlen : ¬ (utf8Encode s).length < 4 := by
          obtain ⟨a', b', c', d', hseg', -⟩ := (hasWindow4_iff _ _).mp hg
          have h4 := occursIn_length hseg'
          simp at h4
          omega
        unfold isSequentialPattern
        rw [if_neg hlen]
        simp only [specLowerLetterWindow, Bool.or_eq_true, Bool.and_eq_true, and_assoc,
          decide_eq_true_eq, isLowerB] at hw
        simp only [Bool.or_eq_true, Bool.and_eq_true]
        obtain ⟨ha1, ha2, hb1, hb2, hc1, hc2, hd1, hd2, hrun⟩ := hw
        right
        refine ⟨hg, ?_⟩
        rcases hrun with hasc | hdesc
        · left
          unfold ascScan
          refine (hasWindow4_iff _ _).mpr ⟨a, b, c, d, hseg, ?_⟩
          rw [decide_eq_true_eq]
          omega
        · right
          unfold descScan
          refine (hasWindow4_iff _ _).mpr ⟨a, b, c, d, hseg, ?_⟩
          rw [decide_eq_true_eq]
          omega
      · simp [specLowerLetterWindow] at hw

/-- C5 witness: the amended characterization applied at "t1234", whose
bytes contain the ascending digit window 49 50 51 52. -/
theorem isSequentialPattern_gated_characterization_witness :
    isSequentialPattern ['t', '1', '2', '3', '4'] = true :=
  (isSequentialPattern_gated_characterization ['t', '1', '2', '3', '4']).mpr
    (Or.inl ⟨[49, 50, 51, 52], ⟨[116], [], by decide⟩, by decide⟩)

/-- C2 counterexample: four repeated copies of the two-byte code point
U+00E9 are a repeating run of code points (the spec's reading, length 4),
but the source function scans the eight UTF-8 bytes 195 169 195 169 ... ,
finds no four equal consecutive bytes, and returns false. -/
theorem repeating_run_bytes_not_codepoints_cex :
    specHasRepeatingRun (List.replicate 4 'é') = true ∧
    (List.replicate 4 'é').length = 4 ∧
    isRepeatingPattern (utf8Encode (List.replicate 4 'é')) = false := by decide

/-- C2 amended: the repeating-run detector operates over the raw bytes of
the input, not code points: it returns true exactly when some byte value
occurs four or more times consecutively, and every input of byte-length
less than 4 yields false. -/
theorem isRepeatingPattern_byte_runs (s : Bytes) :
    (isRepeatingPattern s = true ↔ ∃ b, occursIn [b, b, b, b] s) ∧
    (s.length < 4 → isRepeatingPattern s = false) := by
  constructor
  · unfold isRepeatingPattern
    by_cases hl : s.length < 4
    · rw [if_pos hl]
      constructor
      · intro h
        exact absurd h (by simp)
      · rintro ⟨b, hseg⟩
        have h4 := occursIn_length hseg
        simp at h4
        omega
    · rw [if_neg hl, hasWindow4_iff]
      constructor
      · rintro ⟨a, b, c, d, hseg, hp⟩
        simp only [Bool.and_eq_true, decide_eq_true_eq] at hp
        obtain ⟨⟨hab, hbc⟩, hcd⟩ := hp
        subst hab; subst hbc; subst hcd
        exact ⟨a, hseg⟩
      · rintro ⟨b, hseg⟩
        exact ⟨b, b, b, b, hseg, by simp⟩
  · intro hl
    unfold isRepeatingPattern
    rw [if_pos hl]

/-- C2 witness for the amended statement: a concrete run fires the
detector and a concrete short input is rejected by the length guard. -/
theorem isRepeatingPattern_byte_runs_witness :
    isRepeatingPattern [7, 7, 7, 7, 9] = true ∧ isRepeatingPattern [1, 2] = false :=
  ⟨(isRepeatingPattern_byte_runs [7, 7, 7, 7, 9]).1.mpr ⟨7, ⟨[], [9], rfl⟩⟩,
   (isRepeatingPattern_byte_runs [1, 2]).2 (by decide)⟩

/-- C1 counterexample: for a stored hash the primitive classifies as
malformed (`invalidHash`, a kind distinct from mismatch), `Verify` returns
the very same `verifyFailed` kind that a plain wrong-password mismatch
produces — the failure is converted, not surfaced distinctly. -/
theorem verify_invalid_hash_collapsed_cex :
    bcryptCompareHashAndPassword (ReconstitutePassword ("not-a-bcrypt-hash".data)).hashedValue
      ("Abc123!@".data) = some BcryptError.invalidHash ∧
    Password.Verify (ReconstitutePassword ("not-a-bcrypt-hash".data)) ("Abc123!@".data) =
      some PasswordError.verifyFailed ∧
    bcryptCompareHashAndPassword (ReconstitutePassword ('$' :: "other".data)).hashedValue
      ("Abc123!@".data) = some BcryptError.mismatchedHashAndPassword ∧
    Password.Verify (ReconstitutePassword ('$' :: "other".data)) ("Abc123!@".data) =
      some PasswordError.verifyFailed := by decide

/-- C1 amended: every primitive-level comparison failure — mismatch and
malformed stored hash alike — is collapsed by `Verify` into the single
`verifyFailed` kind, so callers cannot distinguish corrupted stored data
from a wrong password. -/
theorem verify_all_primitive_errors_collapse (p : Password) (attempt : GoStr) (e : BcryptError)
    (h : bcryptCompareHashAndPassword p.hashedValue attempt = some e) :
    Password.Verify p attempt = some PasswordError.verifyFailed := by
  unfold Password.Verify
  rw [h]

/-- C1 witness: the amended theorem applied to a malformed stored hash. -/
theorem verify_all_primitive_errors_collapse_witness :
    Password.Verify (ReconstitutePassword ['x']) [] = some PasswordError.verifyFailed :=
  verify_all_primitive_errors_collapse (ReconstitutePassword ['x']) [] BcryptError.invalidHash
    (by decide)

/-- C3 counterexample: "12345" fails the charset-complexity check and is
on the deny-list, yet validation reports `tooShort`, not `tooWeak`,
because the length floor runs first. -/
theorem tooWeak_precedence_cex :
    validatePasswordComplexity ("12345".data) = some PasswordError.tooWeak ∧
    validatePasswordStrength ("12345".data) = some PasswordError.common ∧
    ValidatePassword ("12345".data) = some PasswordError.tooShort ∧
    ValidatePassword ("12345".data) ≠ some PasswordError.tooWeak := by decide

/-- C3 amended: for every plaintext that passes the length and
printable-character checks and fails both the charset-complexity check and
the common/deny-list check, validation reports `tooWeak`, not `common`,
because the complexity check runs before the common/pattern check. -/
theorem validate_tooWeak_before_common (p : GoStr)
    (hmin : ¬ p.length < MinPasswordLength)
    (hmax : ¬ MaxPasswordLength < p.length)
    (hprint : (p.any fun r => ! unicode.IsPrint r) = false)
    (hcx : validatePasswordComplexity p = some PasswordError.tooWeak)
    (hstrength : validatePasswordStrength p = some PasswordError.common) :
    ValidatePassword p = some PasswordError.tooWeak := by
  unfold ValidatePassword
  rw [if_neg hmin, if_neg hmax]
  rw [if_neg (by simp [hprint])]
  rw [hcx]

/-- C3 witness: "password" passes length and printability, fails both the
complexity check and the deny-list check, and reports `tooWeak`. -/
theorem validate_tooWeak_before_common_witness :
    ValidatePassword ("password".data) = some PasswordError.tooWeak :=
  validate_tooWeak_before_common ("password".data) (by decide) (by decide) (by decide)
    (by decide) (by decide)

/-- C4 counterexample: the Password with empty `hashedValue` (producible
by `ReconstitutePassword ""`) serializes to a record whose deserialization
fails, so the round-trip does not succeed for every Password. -/
theorem marshal_roundtrip_empty_hash_cex :
    (NewPasswordFromJSON (Password.MarshalJSON (ReconstitutePassword []))).2 =
      some PasswordError.malformedPersistedForm := by decide

/-- C4 amended: for every Password whose `hashedValue` is non-empty,
deserializing the serialized structured form succeeds and yields a
Password with the same `hashedValue`. -/
theorem marshal_roundtrip_nonempty (p : Password) (h : p.hashedValue ≠ []) :
    NewPasswordFromJSON (Password.MarshalJSON p) = (p, none) ∧
    (NewPasswordFromJSON (Password.MarshalJSON p)).1.HashedValue = p.HashedValue := by
  have : NewPasswordFromJSON (Password.MarshalJSON p) = (p, none) := by
    unfold NewPasswordFromJSON Password.MarshalJSON jsonUnmarshal ReconstitutePassword
    simp [h]
  exact ⟨this, by rw [this]⟩

/-- C4 witness: a one-character hashed value round-trips. -/
theorem marshal_roundtrip_nonempty_witness :
    NewPasswordFromJSON (Password.MarshalJSON (ReconstitutePassword ['$'])) =
      (ReconstitutePassword ['$'], none) :=
  (marshal_roundtrip_nonempty (ReconstitutePassword ['$']) (by decide)).1

/-- C6: for every plaintext on which construction succeeds, verification
of that same plaintext succeeds; the model is pure, so the result is the
same at every invocation, which the replicated-call clause makes explicit. -/
theorem newPassword_verify_succeeds (x : GoStr) (p : Password)
    (h : NewPassword x = (p, none)) :
    Password.Verify p x = none ∧
    ∀ n : Nat, (List.replicate n (Password.Verify p x)).all (fun r => r == none) = true := by
  unfold NewPassword at h
  cases hv : ValidatePassword x with
  | some e =>
    rw [hv] at h
    simp at h
  | none =>
    rw [hv] at h
    unfold bcryptGenerateFromPassword at h
    by_cases hlen : 72 < (utf8Encode x).length
    · rw [if_pos hlen] at h
      simp at h
    · rw [if_neg hlen] at h
      simp only [Prod.mk.injEq] at h
      obtain ⟨hp, -⟩ := h
      subst hp
      have hver : Password.Verify (Password.mk ('$' :: x)) x = none := by
        unfold Password.Verify bcryptCompareHashAndPassword
        simp
      refine ⟨hver, fun n => ?_⟩
      rw [List.all_eq_true]
      intro r hr
      rw [List.eq_of_mem_replicate hr, hver]
      rfl

/-- C6 witness: "Abc123!@" constructs successfully and then verifies. -/
theorem newPassword_verify_succeeds_witness :
    Password.Verify (Password.mk ('$' :: "Abc123!@".data)) ("Abc123!@".data) = none :=
  (newPassword_verify_succeeds ("Abc123!@".data) (Password.mk ('$' :: "Abc123!@".data))
    (by decide)).1

/-- C7: every plaintext of code-point count below the minimum (8) is
rejected with the `tooShort` kind, before any other check runs. -/
theorem validate_short_tooShort (p : GoStr) (h : p.length < MinPasswordLength) :
    ValidatePassword p = some PasswordError.tooShort := by
  unfold ValidatePassword
  rw [if_pos h]

/-- C7 witness: a five-character plaintext fails with `tooShort`. -/
theorem validate_short_tooShort_witness :
    ValidatePassword ("Abc1!".data) = some PasswordError.tooShort :=
  validate_short_tooShort ("Abc1!".data) (by decide)

/-- C8: deserialization fails (with the distinct `malformedPersistedForm`
kind) exactly when the `hashedValue` field is absent or empty, and every
well-formed record with a non-empty field is accepted by reconstitution
alone — policy validation is never re-run (the witness feeds a hashed
value that could never pass validation). -/
theorem newPasswordFromJSON_malformed_iff (doc : PersistedForm) :
    ((NewPasswordFromJSON doc).2 = some PasswordError.malformedPersistedForm ↔
      (doc.hashedValue = none ∨ doc.hashedValue = some [])) ∧
    (∀ hv : GoStr, doc.hashedValue = some hv → hv ≠ [] →
      NewPasswordFromJSON doc = (ReconstitutePassword hv, none)) := by
  obtain ⟨ohv⟩ := doc
  cases ohv with
  | none =>
    constructor
    · simp [NewPasswordFromJSON, jsonUnmarshal]
    · intro hv heq
      simp at heq
  | some v =>
    by_cases hc : v = []
    · subst hc
      constructor
      · simp [NewPasswordFromJSON, jsonUnmarshal]
      · intro hv heq hne
        simp at heq
        exact absurd heq hne
    · constructor
      · simp [NewPasswordFromJSON, jsonUnmarshal, hc]
      · intro hv heq hne
        simp only [Option.some.injEq] at heq
        subst heq
        unfold NewPasswordFromJSON jsonUnmarshal
        simp [hc, ReconstitutePassword]

/-- C8 witness: a missing field fails with `malformedPersistedForm`, and
the non-empty value "z" — which policy validation would reject as a
plaintext — is accepted untouched. -/
theorem newPasswordFromJSON_malformed_iff_witness :
    (NewPasswordFromJSON (PersistedForm.mk none)).2 =
      some PasswordError.malformedPersistedForm ∧
    NewPasswordFromJSON (PersistedForm.mk (some ['z'])) =
      (ReconstitutePassword ['z'], none) :=
  ⟨(newPasswordFromJSON_malformed_iff (PersistedForm.mk none)).1.mpr (Or.inl rfl),
   (newPasswordFromJSON_malformed_iff (PersistedForm.mk (some ['z']))).2 ['z'] rfl (by decide)⟩

/-- C9 counterexample: the sentinel "[PROTECTED]" does contain a substring
of the hashed value of the Password reconstituted from "P" (namely "P"
itself), so the literal no-shared-substring reading of the claim is false. -/
theorem redacted_shares_substring_cex :
    occursIn ['P'] (Password.String (ReconstitutePassword ['P'])) ∧
    occursIn ['P'] (ReconstitutePassword ['P']).HashedValue :=
  ⟨⟨['['], "ROTECTED]".data, by decide⟩, ⟨[], [], by decide⟩⟩

/-- C9 amended: the redacted string form is the fixed sentinel
"[PROTECTED]" for every Password and is identical across any two
Passwords, hence never derived from (and carrying no information about)
the plaintext or the hashed value; the literal guarantee that it shares no
substring with them cannot hold for adversarial hashed values such as "P". -/
theorem redacted_constant_sentinel (p q : Password) :
    Password.String p = "[PROTECTED]".data ∧ Password.String p = Password.String q :=
  ⟨rfl, rfl⟩

/-- C10: whenever construction returns an error — a policy-validation
failure or a hashing failure — the returned Password is the zero value
with empty hashedValue. -/
theorem newPassword_error_zero_value (x : GoStr) (e : PasswordError)
    (h : (NewPassword x).2 = some e) : (NewPassword x).1 = Password.mk [] := by
  unfold NewPassword at h ⊢
  cases hv : ValidatePassword x with
  | some e' => rfl
  | none =>
    rw [hv] at h
    cases hg : bcryptGenerateFromPassword x BcryptCost with
    | mk hashed oe =>
      rw [hg] at h
      cases oe with
      | none => simp at h
      | some e2 => rfl

/-- C10 witness: the failing construction from "short" yields the
zero-value Password. -/
theorem newPassword_error_zero_value_witness :
    (NewPassword ("short".data)).1 = Password.mk [] :=
  newPassword_error_zero_value ("short".data) PasswordError.tooShort (by decide)
